import Mathlib

/-!
# Verification of the Redux store engine and reducer composer

Shallow embedding of `src/unnamed/part_000` (the annotated Redux sources:
`createStore` and `combineReducers`).  JavaScript features are modelled as
follows:

* Actions (`dispatch`'s argument) are classified exactly as the source's
  guards classify them: `DAction.nonPlain` stands for every value for which
  `isPlainObject(action)` is false, `DAction.noType` for every plain object
  whose `type` property is `undefined`, and `DAction.mk t` for a plain
  object whose `type` is the (defined) value `t`.
* JavaScript `undefined` for states is `Option.none`; a reducer's state
  argument and result are `Option S`.
* Listeners are identified by `Nat` ids; JavaScript reference equality on
  listener functions is equality of ids.  The behaviour of a listener when
  it is invoked is supplied externally as a list of subscribe/unsubscribe
  calls (`SubEvent`); this is the fragment the specification's claims
  quantify over (listeners that touch the subscription registry).
* The listener arrays `currentListeners`/`nextListeners` are modelled as
  `LArr`: a list of listener ids together with an identity tag `id`
  standing for the JavaScript object reference.  The source's
  `nextListeners === currentListeners` test is `id` equality, and
  `currentListeners.slice()` produces a fresh tag.  The source mutates
  arrays in place; every in-place mutation in the source is preceded by
  `ensureCanMutateNextListeners`, which guarantees the mutated array is
  not the one `dispatch`'s notification loop iterates, so modelling
  mutation as functional update of the `nextListeners` field (leaving the
  captured loop list fixed) is faithful.
* Each `subscribe` call returns a closure capturing an `isSubscribed`
  flag; the closure is modelled by a token (`Nat`), and the store keeps
  the association `token ↦ (listener, isSubscribed)` in `subFlags`.
* Reducers are functions from (state, action) to a *reducer body*
  (`RedBody`), a small syntax of the effects a reducer body can perform:
  return a state, throw, read `getState`, call `subscribe`/`unsubscribe`,
  or call `dispatch` re-entrantly and continue with the outcome.  A pure
  reducer is embedded by `pureReducer`.  The interpreter is fuelled; fuel
  exhaustion is reported by a distinguished outcome that no claim
  confuses with a source behaviour.
-/

/-- Classification of the value passed to `dispatch`, by the two guards at
the top of the source's `dispatch`: not a plain object / a plain object
with `type === undefined` / a plain object with a defined `type`. -/
inductive DAction where
  | nonPlain
  | noType
  | mk (t : String)
deriving DecidableEq, Repr

/-- The errors thrown by the store engine.  `reducerRaised` stands for an
exception propagating out of the reducer itself; `outOfFuel` is a model
artefact of the fuelled interpreter (never a source behaviour). -/
inductive DErr where
  | invalidAction
  | invalidActionType
  | reentrantDispatch
  | invalidReducer
  | reducerRaised
  | outOfFuel
deriving DecidableEq, Repr

/-- A registry operation a listener performs when it is invoked:
`sub l` calls `store.subscribe(l)`, `unsub tok` calls the unsubscribe
closure identified by `tok`. -/
inductive SubEvent where
  | sub (l : Nat)
  | unsub (tok : Nat)
deriving DecidableEq, Repr

/-- Outcome of running a reducer body: it returned a state (possibly
`undefined`), it raised, or the model interpreter ran out of fuel. -/
inductive ROut (S : Type) where
  | ret (s : Option S)
  | raised
  | outOfFuel
deriving DecidableEq, Repr

/-- Syntax of the effects a reducer body may perform against the store it
closes over.  `dispatchThen a cont` calls `dispatch a` (re-entrantly) and
continues with the outcome — the source reducer may observe the thrown
re-entrancy error by catching it. -/
inductive RedBody (S : Type) where
  | ret (s : Option S)
  | raise
  | getStateThen (cont : Option S → RedBody S)
  | subThen (l : Nat) (cont : Nat → RedBody S)
  | unsubThen (tok : Nat) (cont : RedBody S)
  | dispatchThen (a : DAction) (cont : Except DErr DAction → RedBody S)

/-- A JavaScript array of listener ids together with its object identity
(`id`).  `===` on arrays is equality of `id`. -/
structure LArr where
  id : Nat
  elems : List Nat
deriving DecidableEq, Repr

/-- The closure state of one `createStore` call: the variables
`currentReducer`, `currentState`, `currentListeners`, `nextListeners`,
`isDispatching`, plus the model's allocators (`freshId` for array
identities, `nextToken` for unsubscribe closures) and the `isSubscribed`
flags of the unsubscribe closures handed out so far. -/
structure Store (S : Type) where
  currentReducer : Option S → DAction → RedBody S
  currentState : Option S
  currentListeners : LArr
  nextListeners : LArr
  isDispatching : Bool
  freshId : Nat
  subFlags : List (Nat × Nat × Bool)
  nextToken : Nat

/-- Result of a `dispatch` call: the store after the call, the outcome
(the action itself on success, the thrown error otherwise), and the log
of listener ids invoked during the notification phase, in order. -/
structure DResult (S : Type) where
  store : Store S
  outcome : Except DErr DAction
  log : List Nat

/-- Source: `isPlainObject(action)` (the lodash check guarding
`dispatch`). -/
def isPlainObject : DAction → Bool
  | .nonPlain => false
  | .noType => true
  | .mk _ => true

/-- Source: `typeof action.type === 'undefined'` is false, i.e. the
action's `type` property is defined. -/
def actionTypeDefined : DAction → Bool
  | .mk _ => true
  | _ => false

/-- Source: `ActionTypes.INIT = '@@redux/INIT'`. -/
def ActionTypesINIT : String := "@@redux/INIT"

/-- The internal bootstrap action `{ type: ActionTypes.INIT }`. -/
def initAction : DAction := DAction.mk ActionTypesINIT

/-- Source `ensureCanMutateNextListeners`: if `nextListeners` and
`currentListeners` are the same array (`===`, i.e. same identity tag),
replace `nextListeners` by `currentListeners.slice()` — a fresh array
with the same elements. -/
def ensureCanMutateNextListeners {S : Type} (st : Store S) : Store S :=
  if st.nextListeners.id = st.currentListeners.id then
    { st with
        nextListeners := { id := st.freshId, elems := st.currentListeners.elems },
        freshId := st.freshId + 1 }
  else st

/-- Source `getState`: returns `currentState` (no guard in this version of
the source). -/
def getState {S : Type} (st : Store S) : Option S :=
  st.currentState

/-- Source `subscribe(listener)`: sets `isSubscribed = true` (a fresh
token with a true flag), forks `nextListeners` if needed, pushes the
listener, and returns the unsubscribe closure (the token).  The
`typeof listener !== 'function'` guard is not modelled: every listener id
stands for a function. -/
def subscribe {S : Type} (l : Nat) (st : Store S) : Store S × Nat :=
  let tok := st.nextToken
  let st1 := ensureCanMutateNextListeners st
  ({ st1 with
       nextListeners := { st1.nextListeners with elems := st1.nextListeners.elems ++ [l] },
       subFlags := st1.subFlags ++ [(tok, l, true)],
       nextToken := tok + 1 }, tok)

/-- First entry of the flag table with the given token (the closure the
token stands for). -/
def findTok (tok : Nat) : List (Nat × Nat × Bool) → Option (Nat × Nat × Bool)
  | [] => none
  | e :: rest => if e.1 = tok then some e else findTok tok rest

/-- Set the `isSubscribed` flag of the given token to false. -/
def setTokInactive (tok : Nat) : List (Nat × Nat × Bool) → List (Nat × Nat × Bool) :=
  List.map fun e => if e.1 = tok then (e.1, e.2.1, false) else e

/-- Source: `nextListeners.splice(nextListeners.indexOf(listener), 1)`.
When the listener is present this removes its first occurrence; when it
is absent, `indexOf` returns `-1` and `splice(-1, 1)` removes the last
element of the array (and does nothing on an empty array) — `dropLast`
models exactly that. -/
def jsRemoveListener (l : Nat) (xs : List Nat) : List Nat :=
  if l ∈ xs then xs.erase l else xs.dropLast

/-- Source: the `unsubscribe` closure returned by `subscribe`.  If its
captured `isSubscribed` flag is already false it returns immediately;
otherwise it clears the flag, forks `nextListeners` if needed, and
splices out the captured listener.  A token absent from the table stands
for no closure at all and is a no-op. -/
def unsubscribe {S : Type} (tok : Nat) (st : Store S) : Store S :=
  match findTok tok st.subFlags with
  | none => st
  | some e =>
    if e.2.2 = false then st
    else
      let st1 := { st with subFlags := setTokInactive tok st.subFlags }
      let st2 := ensureCanMutateNextListeners st1
      { st2 with
          nextListeners := { st2.nextListeners with
                               elems := jsRemoveListener e.2.1 st2.nextListeners.elems } }

/-- Perform one registry call made by a running listener. -/
def applyEvent {S : Type} (st : Store S) : SubEvent → Store S
  | .sub l => (subscribe l st).1
  | .unsub tok => unsubscribe tok st

/-- Perform, in order, the registry calls a listener makes during one
invocation. -/
def applyEvents {S : Type} (evs : List SubEvent) (st : Store S) : Store S :=
  evs.foldl applyEvent st

/-- Source: the notification loop of `dispatch` —
`for (var i = 0; i < listeners.length; i++) listeners[i]()`.  The loop
iterates the array captured in the local `listeners` variable; that array
is never mutated in place during the loop (every registry mutation first
forks via `ensureCanMutateNextListeners`), so the captured list is fixed.
`env l` is the body of listener `l`; the returned list logs the invoked
listeners in order. -/
def notifyAll {S : Type} (env : Nat → List SubEvent) :
    List Nat → Store S → Store S × List Nat
  | [], st => (st, [])
  | l :: rest, st =>
      let st1 := applyEvents (env l) st
      let p := notifyAll env rest st1
      (p.1, l :: p.2)

/-- Interpreter for a reducer body, parameterised by the `dispatch` the
body's re-entrant calls reach (`inner`).  Fuel bounds the length of the
continuation chain; `ret` and `raise` need no fuel. -/
def runBodyWith {S : Type} (inner : DAction → Store S → DResult S) :
    Nat → RedBody S → Store S → Store S × ROut S
  | _, .ret s, st => (st, ROut.ret s)
  | _, .raise, st => (st, ROut.raised)
  | 0, _, st => (st, ROut.outOfFuel)
  | n + 1, .getStateThen cont, st =>
      runBodyWith inner n (cont (getState st)) st
  | n + 1, .subThen l cont, st =>
      let p := subscribe l st
      runBodyWith inner n (cont p.2) p.1
  | n + 1, .unsubThen tok cont, st =>
      runBodyWith inner n cont (unsubscribe tok st)
  | n + 1, .dispatchThen a cont, st =>
      let r := inner a st
      runBodyWith inner n (cont r.outcome) r.store

/-- The three guards at the top of the source's `dispatch`, in source
order: `!isPlainObject(action)` throws the invalid-action error;
`typeof action.type === 'undefined'` throws the invalid-action-type
error; `isDispatching` throws the re-entrant-dispatch error. -/
def dispatchChecks {S : Type} (a : DAction) (st : Store S) : Option DErr :=
  if isPlainObject a = false then some DErr.invalidAction
  else if actionTypeDefined a = false then some DErr.invalidActionType
  else if st.isDispatching then some DErr.reentrantDispatch
  else none

/-- Source `dispatch(action)`.  After the guards:
`try { isDispatching = true; currentState = currentReducer(currentState, action) }
finally { isDispatching = false }`, then
`var listeners = currentListeners = nextListeners` and the notification
loop, finally `return action`.  If the reducer raises, the exception
propagates after the `finally` reset — the swap and the notification
never happen and `currentState` keeps its prior value.  The fuel bounds
the nesting depth of re-entrant `dispatch` calls and the length of the
reducer body. -/
def dispatch {S : Type} (env : Nat → List SubEvent) :
    Nat → DAction → Store S → DResult S
  | 0, a, st => ⟨st, Except.error ((dispatchChecks a st).getD DErr.outOfFuel), []⟩
  | n + 1, a, st =>
    match dispatchChecks a st with
    | some e => ⟨st, Except.error e, []⟩
    | none =>
      let body := st.currentReducer st.currentState a
      let p := runBodyWith (dispatch env n) n body { st with isDispatching := true }
      match p.2 with
      | ROut.ret s' =>
          let st3 := { p.1 with currentState := s', isDispatching := false }
          let listeners := st3.nextListeners
          let st4 := { st3 with currentListeners := listeners }
          let q := notifyAll env listeners.elems st4
          ⟨q.1, Except.ok a, q.2⟩
      | ROut.raised =>
          ⟨{ p.1 with isDispatching := false }, Except.error DErr.reducerRaised, []⟩
      | ROut.outOfFuel =>
          ⟨{ p.1 with isDispatching := false }, Except.error DErr.outOfFuel, []⟩

/-- The closure state right after the variable initialisations in
`createStore`: `currentReducer = reducer`, `currentState =
preloadedState`, `currentListeners = []`, `nextListeners =
currentListeners` (the same array — same identity tag), `isDispatching =
false`. -/
def initialStore {S : Type} (red : Option S → DAction → RedBody S)
    (preloadedState : Option S) : Store S :=
  { currentReducer := red
    currentState := preloadedState
    currentListeners := { id := 0, elems := [] }
    nextListeners := { id := 0, elems := [] }
    isDispatching := false
    freshId := 1
    subFlags := []
    nextToken := 0 }

/-- Source `createStore(reducer, preloadedState)`: initialise the closure
variables, then `dispatch({ type: ActionTypes.INIT })` to seed
`currentState`, and return the store.  The enhancer overload and the
`typeof reducer !== 'function'` guard concern no claim and are not
modelled: `red` always stands for a function. -/
def createStore {S : Type} (fuel : Nat) (red : Option S → DAction → RedBody S)
    (preloadedState : Option S) : Store S :=
  (dispatch (fun _ => []) fuel initAction (initialStore red preloadedState)).store

/-- Source `replaceReducer(nextReducer)`: if `nextReducer` is not a
function (`none`) throw the invalid-reducer error; otherwise assign it to
`currentReducer` and `dispatch({ type: ActionTypes.INIT })`. -/
def replaceReducer {S : Type} (env : Nat → List SubEvent) (fuel : Nat)
    (nextReducer : Option (Option S → DAction → RedBody S)) (st : Store S) :
    Store S × Except DErr Unit :=
  match nextReducer with
  | none => (st, Except.error DErr.invalidReducer)
  | some r =>
      ((dispatch env fuel initAction { st with currentReducer := r }).store, Except.ok ())

/-- Embedding of an ordinary (pure, effect-free) JavaScript reducer. -/
def pureReducer {S : Type} (f : Option S → DAction → Option S) :
    Option S → DAction → RedBody S :=
  fun s a => RedBody.ret (f s a)

/-- The counter reducer of the specification's example:
`counterReducer(state = 0, action)` returns `state + 1` on
`{type: "INC"}` and `state` otherwise. -/
def counterReducer : Option Nat → DAction → RedBody Nat :=
  pureReducer fun s a =>
    let st := s.getD 0
    some (if a = DAction.mk "INC" then st + 1 else st)

/-! ## Reducer composer (`combineReducers`) -/

/-- A JavaScript plain object used as combined state: a string-keyed
record of slice values, together with its object identity `oid`
(JavaScript `===` on two such objects is equality of `oid`). -/
structure JObj (V : Type) where
  oid : Nat
  fields : List (String × V)
deriving DecidableEq, Repr

/-- Property read `obj[key]`: the first field with that key, `undefined`
(`none`) if absent. -/
def fieldsGet {V : Type} (k : String) : List (String × V) → Option V
  | [] => none
  | e :: rest => if e.1 = k then some e.2 else fieldsGet k rest

/-- Property read on a `JObj`. -/
def JObj.get {V : Type} (o : JObj V) (k : String) : Option V :=
  fieldsGet k o.fields

/-- Errors raised by the combined reducer: the deferred build-time sanity
error (tagged with the offending key), and the per-dispatch
undefined-slice-state error (tagged with the key and the action name the
source's message quotes). -/
inductive CombErr where
  | sanity (key : String)
  | undefinedSlice (key : String) (actionName : String)
deriving DecidableEq, Repr

/-- Source `getUndefinedStateErrorMessage`'s action name: the quoted
`action.type` when it is defined and truthy, `"an action"` otherwise
(an absent type, a non-object action, or the empty — falsy — string). -/
def describeAction : DAction → String
  | DAction.mk t => if t = "" then "an action" else "\"" ++ t ++ "\""
  | _ => "an action"

/-- Source: the `for` loop inside `combination`.  For each surviving key
in build order: `previousStateForKey = state[key]`,
`nextStateForKey = reducer(previousStateForKey, action)`; if the result
is `undefined` throw the undefined-slice error for that key; otherwise
record it in `nextState` and accumulate
`hasChanged = hasChanged || nextStateForKey !== previousStateForKey`
(the Boolean disjunction is accumulated over the recursion; its value is
the same as the source's left-to-right accumulation). -/
def combineLoop {V : Type} [DecidableEq V]
    (rs : List (String × (Option V → DAction → Option V)))
    (state : JObj V) (a : DAction) : Except CombErr (List (String × V) × Bool) :=
  match rs with
  | [] => Except.ok ([], false)
  | (key, reducer) :: rest =>
      let previousStateForKey := state.get key
      match reducer previousStateForKey a with
      | none => Except.error (CombErr.undefinedSlice key (describeAction a))
      | some nextStateForKey =>
          match combineLoop rest state a with
          | Except.error e => Except.error e
          | Except.ok (fields, hasChanged) =>
              Except.ok ((key, nextStateForKey) :: fields,
                decide (some nextStateForKey ≠ previousStateForKey) || hasChanged)

/-- Source: the `combination(state = {}, action)` closure returned by
`combineReducers`.  If a deferred sanity error exists, throw it.
Otherwise run the slice loop; if no slice changed return the very
`state` object passed in, else return the newly allocated object
(`var nextState = {}` — given identity `fresh`, which also serves as the
identity of the default `{}` when `state` is `undefined`).  The
non-production unexpected-shape warning is a console diagnostic with no
effect on the result and is not modelled. -/
def combination {V : Type} [DecidableEq V]
    (finalReducers : List (String × (Option V → DAction → Option V)))
    (sanityError : Option String) (fresh : Nat)
    (state? : Option (JObj V)) (a : DAction) : Except CombErr (JObj V) :=
  match sanityError with
  | some k => Except.error (CombErr.sanity k)
  | none =>
      let state := state?.getD { oid := fresh, fields := [] }
      match combineLoop finalReducers state a with
      | Except.error e => Except.error e
      | Except.ok (fields, hasChanged) =>
          Except.ok (if hasChanged then { oid := fresh, fields := fields } else state)

/-- Source: the first loop of `combineReducers`, which copies into
`finalReducers` exactly the entries whose value is a function (`some`).
The non-production "No reducer provided for key" warning is a console
diagnostic and is not modelled. -/
def finalReducersOf {V : Type}
    (reducers : List (String × Option (Option V → DAction → Option V))) :
    List (String × (Option V → DAction → Option V)) :=
  reducers.filterMap fun e => e.2.map fun r => (e.1, r)

/-- Source `assertReducerSanity` wrapped in `try { … } catch (e)
{ sanityError = e }`: the key of the first reducer (in build order) that
returns `undefined` either for `(undefined, {type: ActionTypes.INIT})`
or for `(undefined, {type: probeT})`, where `probeT` stands for the
randomised `@@redux/PROBE_UNKNOWN_ACTION_…` type (the randomisation is
not behaviourally significant; the probe type is a parameter). -/
def findSanityError {V : Type}
    (rs : List (String × (Option V → DAction → Option V)))
    (probeT : String) : Option String :=
  match rs with
  | [] => none
  | (key, reducer) :: rest =>
      if (reducer none initAction).isNone then some key
      else if (reducer none (DAction.mk probeT)).isNone then some key
      else findSanityError rest probeT

/-- Source `combineReducers(reducers)`: filter the function-valued
entries, compute the deferred sanity error, and return the `combination`
closure. -/
def combineReducers {V : Type} [DecidableEq V]
    (reducers : List (String × Option (Option V → DAction → Option V)))
    (probeT : String) :
    Nat → Option (JObj V) → DAction → Except CombErr (JObj V) :=
  let finalReducers := finalReducersOf reducers
  let sanityError := findSanityError finalReducers probeT
  combination finalReducers sanityError


/-- A reducer that, on action `"GO"`, subscribes listener `7` from inside
the reducer body and returns the state unchanged. -/
def c1Reducer : Option Nat → DAction → RedBody Nat :=
  fun s a =>
    if a = DAction.mk "GO" then RedBody.subThen 7 (fun _ => RedBody.ret s)
    else RedBody.ret s

/-! ## Concrete stores, reducers and environments used by the counterexample and the witnesses -/
def wId : Option Nat → DAction → Option Nat := fun s _ => s

def wPure : Option Nat → DAction → Option Nat := fun s _ => some (s.getD 0)

def wStore0 : Store Nat := createStore 1 (pureReducer wPure) none

def wStoreMid : Store Nat := { wStore0 with isDispatching := true }

def wSubRed : Option Nat → DAction → RedBody Nat :=
  fun s a => RedBody.subThen 7 fun _ => RedBody.ret (wId s a)

def wSubStore : Store Nat := createStore 2 wSubRed none

def wEnvA : Nat → List SubEvent := fun x => if x = 1 then [SubEvent.sub 9] else []

def wStoreA : Store Nat := (subscribe 1 wStore0).1

def wEnvB : Nat → List SubEvent := fun x => if x = 5 then [SubEvent.unsub 0] else []

def wStoreB : Store Nat := (subscribe 5 wStore0).1

def wBusy : Store Nat := { wStore0 with isDispatching := true }

def wRaiseRed : Option Nat → DAction → RedBody Nat :=
  fun _ a => if a = DAction.mk "BOOM" then RedBody.raise else RedBody.ret (some 0)

def wRaiseStore : Store Nat := createStore 1 wRaiseRed none

def wG : Option Nat → Except DErr DAction → Option Nat :=
  fun _ res =>
    match res with
    | Except.error DErr.reentrantDispatch => some 1
    | _ => some 0

def wInnerRed : Option Nat → DAction → RedBody Nat :=
  fun s _ => RedBody.dispatchThen (DAction.mk "IN") fun res => RedBody.ret (wG s res)

def wInnerStore : Store Nat := createStore 3 wInnerRed none

def wK : Option Nat → DAction → Option Nat := fun obs _ => obs

def wGetRed : Option Nat → DAction → RedBody Nat :=
  fun _ a => RedBody.getStateThen fun obs => RedBody.ret (wK obs a)

def wGetStore : Store Nat := createStore 2 wGetRed none

def wIdSlice : Option Nat → DAction → Option Nat := fun s _ => some (s.getD 0)

def wIncSlice : Option Nat → DAction → Option Nat := fun s _ => some (s.getD 0 + 1)

def wBadSlice : Option Nat → DAction → Option Nat := fun _ _ => none

def wRsA : List (String × Option (Option Nat → DAction → Option Nat)) :=
  [("a", some wIdSlice), ("b", some wIdSlice)]

def wRsB : List (String × Option (Option Nat → DAction → Option Nat)) :=
  [("a", some wIdSlice), ("b", some wIncSlice)]

def wRsBad : List (String × Option (Option Nat → DAction → Option Nat)) :=
  [("bad", some wBadSlice)]

def wStateA : JObj Nat := { oid := 5, fields := [("a", 1), ("b", 2)] }


/-- The fields of the store that `subscribe`/`unsubscribe` (and hence
running listeners) never modify: `currentState`, `currentReducer`,
`isDispatching` and `currentListeners`. -/
def SameCore {S : Type} (st st' : Store S) : Prop :=
  st'.currentState = st.currentState ∧ st'.currentReducer = st.currentReducer ∧
  st'.isDispatching = st.isDispatching ∧ st'.currentListeners = st.currentListeners

/-- Invariant of every store reachable from `initialStore`: array identity
tags are below the allocator (`freshId`), two listener arrays with the
same tag have the same contents (JavaScript cannot have one object with
two contents), and unsubscribe tokens are below the token allocator. -/
def StoreWF {S : Type} (st : Store S) : Prop :=
  st.currentListeners.id < st.freshId ∧ st.nextListeners.id < st.freshId ∧
  (st.nextListeners.id = st.currentListeners.id →
    st.nextListeners.elems = st.currentListeners.elems) ∧
  (∀ e ∈ st.subFlags, e.1 < st.nextToken)

/-! ## Frame lemmas: registry operations do not touch the dispatch core -/

theorem sameCore_refl {S : Type} (st : Store S) : SameCore st st :=
  ⟨rfl, rfl, rfl, rfl⟩

theorem sameCore_trans {S : Type} {s1 s2 s3 : Store S} :
    SameCore s1 s2 → SameCore s2 s3 → SameCore s1 s3 := by
  intro h1 h2
  exact ⟨h2.1.trans h1.1, h2.2.1.trans h1.2.1, h2.2.2.1.trans h1.2.2.1,
    h2.2.2.2.trans h1.2.2.2⟩

theorem sameCore_ensure {S : Type} (st : Store S) :
    SameCore st (ensureCanMutateNextListeners st) := by
  unfold ensureCanMutateNextListeners
  split <;> exact ⟨rfl, rfl, rfl, rfl⟩

theorem ensure_subFlags {S : Type} (st : Store S) :
    (ensureCanMutateNextListeners st).subFlags = st.subFlags := by
  unfold ensureCanMutateNextListeners; split <;> rfl

theorem ensure_nextToken {S : Type} (st : Store S) :
    (ensureCanMutateNextListeners st).nextToken = st.nextToken := by
  unfold ensureCanMutateNextListeners; split <;> rfl

theorem sameCore_subscribe {S : Type} (l : Nat) (st : Store S) :
    SameCore st (subscribe l st).1 := by
  have h := sameCore_ensure st
  exact ⟨h.1, h.2.1, h.2.2.1, h.2.2.2⟩

theorem sameCore_unsubscribe {S : Type} (tok : Nat) (st : Store S) :
    SameCore st (unsubscribe tok st) := by
  unfold unsubscribe
  rcases findTok tok st.subFlags with _ | e
  · exact sameCore_refl st
  · dsimp only
    split
    · exact sameCore_refl st
    · have h := sameCore_ensure { st with subFlags := setTokInactive tok st.subFlags }
      exact ⟨h.1, h.2.1, h.2.2.1, h.2.2.2⟩

theorem sameCore_applyEvent {S : Type} (st : Store S) (ev : SubEvent) :
    SameCore st (applyEvent st ev) := by
  cases ev with
  | sub l => exact sameCore_subscribe l st
  | unsub tok => exact sameCore_unsubscribe tok st

theorem sameCore_applyEvents {S : Type} (evs : List SubEvent) (st : Store S) :
    SameCore st (applyEvents evs st) := by
  induction evs generalizing st with
  | nil => exact sameCore_refl st
  | cons ev rest ih =>
      exact sameCore_trans (sameCore_applyEvent st ev) (ih (applyEvent st ev))

theorem sameCore_notifyAll {S : Type} (env : Nat → List SubEvent)
    (ls : List Nat) (st : Store S) :
    SameCore st (notifyAll env ls st).1 := by
  induction ls generalizing st with
  | nil => exact sameCore_refl st
  | cons l rest ih =>
      exact sameCore_trans (sameCore_applyEvents (env l) st)
        (ih (applyEvents (env l) st))

/-- The notification loop invokes exactly the listeners of the captured
snapshot, in order, whatever the invoked listeners do. -/
theorem notifyAll_log {S : Type} (env : Nat → List SubEvent)
    (ls : List Nat) (st : Store S) :
    (notifyAll env ls st).2 = ls := by
  induction ls generalizing st with
  | nil => rfl
  | cons l rest ih => simp [notifyAll, ih]

/-! ## Well-formedness of reachable stores -/

theorem storeWF_initial {S : Type} (red : Option S → DAction → RedBody S)
    (preloadedState : Option S) : StoreWF (initialStore red preloadedState) := by
  refine ⟨Nat.zero_lt_one, Nat.zero_lt_one, fun _ => rfl, fun e he => ?_⟩
  simp [initialStore] at he

/-- Under well-formedness, forking the staging array preserves its
contents. -/
theorem ensure_elems {S : Type} {st : Store S} (hwf : StoreWF st) :
    (ensureCanMutateNextListeners st).nextListeners.elems = st.nextListeners.elems := by
  unfold ensureCanMutateNextListeners
  split
  · next h => exact (hwf.2.2.1 h).symm
  · rfl

theorem storeWF_ensure {S : Type} {st : Store S} (hwf : StoreWF st) :
    StoreWF (ensureCanMutateNextListeners st) := by
  unfold ensureCanMutateNextListeners
  split
  · next h =>
      refine ⟨Nat.lt_succ_of_lt hwf.1, Nat.lt_succ_self _, ?_, hwf.2.2.2⟩
      intro hid
      exact absurd hid.symm (Nat.ne_of_lt hwf.1)
  · exact hwf

/-- After a well-formed `subscribe`, the staging array is the old one with
the listener appended. -/
theorem subscribe_elems {S : Type} {st : Store S} (hwf : StoreWF st) (l : Nat) :
    (subscribe l st).1.nextListeners.elems = st.nextListeners.elems ++ [l] := by
  show (ensureCanMutateNextListeners st).nextListeners.elems ++ [l] = _
  rw [ensure_elems hwf]

theorem subscribe_subFlags {S : Type} (l : Nat) (st : Store S) :
    (subscribe l st).1.subFlags = st.subFlags ++ [(st.nextToken, l, true)] := by
  show (ensureCanMutateNextListeners st).subFlags ++ _ = _
  rw [ensure_subFlags]

theorem subscribe_nextToken {S : Type} (l : Nat) (st : Store S) :
    (subscribe l st).1.nextToken = st.nextToken + 1 := rfl

theorem subscribe_snd {S : Type} (l : Nat) (st : Store S) :
    (subscribe l st).2 = st.nextToken := rfl

/-- After forking, the staging and snapshot arrays are never the same
object. -/
theorem ensure_ids_ne {S : Type} {st : Store S} (hwf : StoreWF st) :
    (ensureCanMutateNextListeners st).nextListeners.id ≠
      (ensureCanMutateNextListeners st).currentListeners.id := by
  unfold ensureCanMutateNextListeners
  split
  · next h => exact fun hid => absurd hid (Nat.ne_of_gt hwf.1)
  · next h => exact h

theorem storeWF_subscribe {S : Type} {st : Store S} (hwf : StoreWF st) (l : Nat) :
    StoreWF (subscribe l st).1 := by
  have he := storeWF_ensure hwf
  have hne := ensure_ids_ne hwf
  refine ⟨he.1, he.2.1, fun hid => absurd hid hne, ?_⟩
  intro e hmem
  rw [subscribe_subFlags] at hmem
  rw [subscribe_nextToken]
  rcases List.mem_append.mp hmem with h | h
  · exact Nat.lt_succ_of_lt (hwf.2.2.2 e h)
  · simp at h
    subst h
    exact Nat.lt_succ_self _

theorem setTokInactive_keys (tok : Nat) (fl : List (Nat × Nat × Bool)) :
    ∀ e ∈ setTokInactive tok fl, ∃ e' ∈ fl, e.1 = e'.1 := by
  intro e he
  unfold setTokInactive at he
  rcases List.mem_map.mp he with ⟨e', he', heq⟩
  refine ⟨e', he', ?_⟩
  subst heq
  split <;> rfl

theorem storeWF_unsubscribe {S : Type} {st : Store S} (hwf : StoreWF st) (tok : Nat) :
    StoreWF (unsubscribe tok st) := by
  unfold unsubscribe
  rcases findTok tok st.subFlags with _ | e
  · exact hwf
  · dsimp only
    split
    · exact hwf
    · have hwf1 : StoreWF { st with subFlags := setTokInactive tok st.subFlags } := by
        refine ⟨hwf.1, hwf.2.1, hwf.2.2.1, ?_⟩
        intro e' he'
        rcases setTokInactive_keys tok st.subFlags e' he' with ⟨e'', he'', hkey⟩
        rw [hkey]
        exact hwf.2.2.2 e'' he''
      have he2 := storeWF_ensure hwf1
      have hne := ensure_ids_ne hwf1
      exact ⟨he2.1, he2.2.1, fun hid => absurd hid hne, he2.2.2.2⟩

theorem storeWF_applyEvent {S : Type} {st : Store S} (hwf : StoreWF st)
    (ev : SubEvent) : StoreWF (applyEvent st ev) := by
  cases ev with
  | sub l => exact storeWF_subscribe hwf l
  | unsub tok => exact storeWF_unsubscribe hwf tok

theorem storeWF_applyEvents {S : Type} {st : Store S} (hwf : StoreWF st)
    (evs : List SubEvent) : StoreWF (applyEvents evs st) := by
  induction evs generalizing st with
  | nil => exact hwf
  | cons ev rest ih => exact ih (storeWF_applyEvent hwf ev)

theorem runBodyWith_ret {S : Type} (inner : DAction → Store S → DResult S)
    (fuel : Nat) (s : Option S) (st : Store S) :
    runBodyWith inner fuel (RedBody.ret s) st = (st, ROut.ret s) := by
  cases fuel <;> rfl

theorem runBodyWith_raise {S : Type} (inner : DAction → Store S → DResult S)
    (fuel : Nat) (st : Store S) :
    runBodyWith inner fuel (RedBody.raise) st = (st, ROut.raised) := by
  cases fuel <;> rfl

theorem dispatchChecks_mk {S : Type} (t : String) {st : Store S}
    (hidle : st.isDispatching = false) : dispatchChecks (DAction.mk t) st = none := by
  simp [dispatchChecks, isPlainObject, actionTypeDefined, hidle]

/-- Full characterisation of a successful dispatch with a pure reducer:
the guards pass, the reducer computes the new state, the snapshot swap
aliases `currentListeners` to `nextListeners`, the notification loop runs
over exactly the pre-dispatch `nextListeners`, and the action is
returned.  The log is the pre-dispatch registry because a pure reducer
performs no registry operation. -/
theorem dispatch_pure {S : Type} (env : Nat → List SubEvent) (fuel : Nat)
    (f : Option S → DAction → Option S) (t : String) (st : Store S)
    (hred : st.currentReducer = pureReducer f) (hidle : st.isDispatching = false) :
    dispatch env (fuel + 1) (DAction.mk t) st =
      ⟨(notifyAll env st.nextListeners.elems
          { st with currentState := f st.currentState (DAction.mk t),
                    isDispatching := false,
                    currentListeners := st.nextListeners }).1,
        Except.ok (DAction.mk t), st.nextListeners.elems⟩ := by
  obtain ⟨red, cs, cl, nl, idp, fid, sf, nt⟩ := st
  simp only [Store.mk.injEq] at hred
  dsimp only at hred hidle
  subst hred hidle
  show dispatch env (fuel + 1) (DAction.mk t) _ = _
  rw [dispatch]
  rw [dispatchChecks_mk t rfl]
  dsimp only [pureReducer]
  rw [runBodyWith_ret]
  dsimp only
  rw [notifyAll_log]

/-- Re-entrancy guard: while `isDispatching` is set, any `dispatch` of a
valid action throws the re-entrant-dispatch error and leaves the store
untouched, at every fuel. -/
theorem dispatch_dispatching {S : Type} (env : Nat → List SubEvent) (fuel : Nat)
    (t : String) (st : Store S) (h : st.isDispatching = true) :
    dispatch env fuel (DAction.mk t) st = ⟨st, Except.error DErr.reentrantDispatch, []⟩ := by
  cases fuel <;>
    simp [dispatch, dispatchChecks, isPlainObject, actionTypeDefined, h]

/-- A dispatch whose reducer invocation returns succeeds and returns the
action. -/
theorem dispatch_ret_outcome {S : Type} (env : Nat → List SubEvent) (fuel : Nat)
    (t : String) (s : Option S) (st : Store S)
    (hidle : st.isDispatching = false)
    (hret : st.currentReducer st.currentState (DAction.mk t) = RedBody.ret s) :
    (dispatch env (fuel + 1) (DAction.mk t) st).outcome = Except.ok (DAction.mk t) := by
  rw [dispatch, dispatchChecks_mk t hidle]
  dsimp only
  rw [hret, runBodyWith_ret]

/-- claim C4: a non-plain value fails with the invalid-action error and a
plain record without a `type` fails with the invalid-action-type error;
in both cases the store (hence `currentState`) is unchanged and the
listener log is empty. -/
theorem claim4_dispatch_validation : ∀ (S : Type) (env : Nat → List SubEvent)
    (fuel : Nat) (st : Store S),
    dispatch env fuel DAction.nonPlain st
      = ⟨st, Except.error DErr.invalidAction, []⟩ ∧
    dispatch env fuel DAction.noType st
      = ⟨st, Except.error DErr.invalidActionType, []⟩ := by
  intro S env fuel st
  cases fuel <;> exact ⟨rfl, rfl⟩

/-- claim C9: the counter example — `getState` is `some 0` right after
creation (the factory dispatched the internal INIT action), and after
`dispatch {type := "INC"}` the state is `some 1` and the dispatch
returned the action. -/
theorem claim9_counter_example :
    getState (createStore 1 counterReducer none) = some 0 ∧
    (dispatch (fun _ => []) 1 (DAction.mk "INC")
        (createStore 1 counterReducer none)).outcome
      = Except.ok (DAction.mk "INC") ∧
    getState (dispatch (fun _ => []) 1 (DAction.mk "INC")
        (createStore 1 counterReducer none)).store = some 1 := by
  refine ⟨rfl, rfl, rfl⟩

theorem runBodyWith_getStateThen {S : Type} (inner : DAction → Store S → DResult S)
    (n : Nat) (cont : Option S → RedBody S) (st : Store S) :
    runBodyWith inner (n + 1) (RedBody.getStateThen cont) st
      = runBodyWith inner n (cont (getState st)) st := rfl

theorem runBodyWith_subThen {S : Type} (inner : DAction → Store S → DResult S)
    (n : Nat) (l : Nat) (cont : Nat → RedBody S) (st : Store S) :
    runBodyWith inner (n + 1) (RedBody.subThen l cont) st
      = runBodyWith inner n (cont (subscribe l st).2) (subscribe l st).1 := rfl

theorem runBodyWith_dispatchThen {S : Type} (inner : DAction → Store S → DResult S)
    (n : Nat) (a : DAction) (cont : Except DErr DAction → RedBody S) (st : Store S) :
    runBodyWith inner (n + 1) (RedBody.dispatchThen a cont) st
      = runBodyWith inner n (cont (inner a st).outcome) (inner a st).store := rfl

/-- claim C10: (first conjunct) a reducer that reads `getState` mid-body
observes exactly the pre-dispatch state — `currentState` is reassigned
only after the reducer returns, so the final state is the continuation
applied to the pre-dispatch value; (second conjunct) if the reducer
raises, `currentState` is never reassigned at all. -/
theorem claim10_state_during_reducer :
    (∀ (S : Type) (env : Nat → List SubEvent) (fuel : Nat)
        (k : Option S → DAction → Option S) (t : String) (st : Store S),
      st.isDispatching = false →
      st.currentReducer =
        (fun _ a => RedBody.getStateThen fun obs => RedBody.ret (k obs a)) →
      getState (dispatch env (fuel + 2) (DAction.mk t) st).store
          = k (getState st) (DAction.mk t) ∧
      (dispatch env (fuel + 2) (DAction.mk t) st).outcome
          = Except.ok (DAction.mk t)) ∧
    (∀ (S : Type) (env : Nat → List SubEvent) (fuel : Nat) (t : String)
        (st : Store S),
      st.isDispatching = false →
      st.currentReducer st.currentState (DAction.mk t) = RedBody.raise →
      getState (dispatch env (fuel + 1) (DAction.mk t) st).store = getState st ∧
      (dispatch env (fuel + 1) (DAction.mk t) st).outcome
          = Except.error DErr.reducerRaised) := by
  constructor
  · intro S env fuel k t st hidle hred
    rw [show fuel + 2 = (fuel + 1) + 1 from rfl, dispatch, dispatchChecks_mk t hidle]
    dsimp only
    rw [hred]
    dsimp only
    rw [runBodyWith_getStateThen]
    dsimp only [getState]
    rw [runBodyWith_ret]
    dsimp only
    exact ⟨(sameCore_notifyAll env st.nextListeners.elems _).1, rfl⟩
  · intro S env fuel t st hidle hraise
    rw [dispatch, dispatchChecks_mk t hidle]
    dsimp only
    rw [hraise, runBodyWith_raise]
    exact ⟨rfl, rfl⟩

/-- claim C3: (1) dispatching while the reducer is running throws the
re-entrant-dispatch error and changes nothing; (2) a raising reducer
still releases the `isDispatching` flag on exit — the resulting store is
exactly the pre-dispatch store (idle, state untouched) while the
reducer's exception propagates; (3) the store therefore accepts a
subsequent dispatch, which completes; (4) a reducer that attempts an
inner `dispatch` and catches the result sees exactly the
re-entrant-dispatch error, and the outer dispatch still completes
normally, returning its action. -/
theorem claim3_reentrancy :
    (∀ (S : Type) (env : Nat → List SubEvent) (fuel : Nat) (t : String)
        (st : Store S), st.isDispatching = true →
      dispatch env fuel (DAction.mk t) st
        = ⟨st, Except.error DErr.reentrantDispatch, []⟩) ∧
    (∀ (S : Type) (env : Nat → List SubEvent) (fuel : Nat) (t : String)
        (st : Store S), st.isDispatching = false →
      st.currentReducer st.currentState (DAction.mk t) = RedBody.raise →
      (dispatch env (fuel + 1) (DAction.mk t) st).store = st ∧
      (dispatch env (fuel + 1) (DAction.mk t) st).outcome
        = Except.error DErr.reducerRaised) ∧
    (∀ (S : Type) (env : Nat → List SubEvent) (fuel fuel₂ : Nat) (t t₂ : String)
        (s₂ : Option S) (st : Store S), st.isDispatching = false →
      st.currentReducer st.currentState (DAction.mk t) = RedBody.raise →
      st.currentReducer st.currentState (DAction.mk t₂) = RedBody.ret s₂ →
      (dispatch env (fuel₂ + 1) (DAction.mk t₂)
          (dispatch env (fuel + 1) (DAction.mk t) st).store).outcome
        = Except.ok (DAction.mk t₂)) ∧
    (∀ (S : Type) (env : Nat → List SubEvent) (fuel : Nat) (t t' : String)
        (g : Option S → Except DErr DAction → Option S) (st : Store S),
      st.isDispatching = false →
      st.currentReducer =
        (fun s _ => RedBody.dispatchThen (DAction.mk t')
          fun res => RedBody.ret (g s res)) →
      (dispatch env (fuel + 2) (DAction.mk t) st).outcome
          = Except.ok (DAction.mk t) ∧
      getState (dispatch env (fuel + 2) (DAction.mk t) st).store
          = g st.currentState (Except.error DErr.reentrantDispatch)) := by
  have hraised : ∀ (S : Type) (env : Nat → List SubEvent) (fuel : Nat) (t : String)
      (st : Store S), st.isDispatching = false →
      st.currentReducer st.currentState (DAction.mk t) = RedBody.raise →
      (dispatch env (fuel + 1) (DAction.mk t) st).store = st ∧
      (dispatch env (fuel + 1) (DAction.mk t) st).outcome
        = Except.error DErr.reducerRaised := by
    intro S env fuel t st hidle hraise
    obtain ⟨red, cs, cl, nl, idp, fid, sf, nt⟩ := st
    dsimp only at hidle hraise
    subst hidle
    rw [dispatch, dispatchChecks_mk t rfl]
    dsimp only
    rw [hraise, runBodyWith_raise]
    exact ⟨rfl, rfl⟩
  refine ⟨?_, hraised, ?_, ?_⟩
  · intro S env fuel t st h
    exact dispatch_dispatching env fuel t st h
  · intro S env fuel fuel₂ t t₂ s₂ st hidle hraise hret
    rw [(hraised S env fuel t st hidle hraise).1]
    exact dispatch_ret_outcome env fuel₂ t₂ s₂ st hidle hret
  · intro S env fuel t t' g st hidle hred
    rw [show fuel + 2 = (fuel + 1) + 1 from rfl, dispatch, dispatchChecks_mk t hidle]
    dsimp only
    rw [hred]
    dsimp only
    rw [runBodyWith_dispatchThen]
    rw [dispatch_dispatching env (fuel + 1) t' _ rfl]
    dsimp only
    rw [runBodyWith_ret]
    exact ⟨rfl, (sameCore_notifyAll env _ _).1⟩

/-- claim C6: when the sanity probe of some surviving slice reducer fails
(it returns `undefined` for the INIT probe or for the unknown-type
probe), `combineReducers` itself still returns a combined reducer (the
model function is total: the source catches the assertion error and
stores it), and every invocation of that combined reducer — whatever the
state, action and allocation — throws the deferred sanity error naming
the offending key: the first real call fails and all later calls fail
identically. -/
theorem claim6_deferred_sanity_error :
    ∀ (V : Type) (_inst : DecidableEq V)
      (reducers : List (String × Option (Option V → DAction → Option V)))
      (probeT : String) (k : String),
      findSanityError (finalReducersOf reducers) probeT = some k →
      ∀ (fresh : Nat) (state? : Option (JObj V)) (a : DAction),
        combineReducers reducers probeT fresh state? a
          = Except.error (CombErr.sanity k) := by
  intro V _inst reducers probeT k h fresh state? a
  unfold combineReducers
  rw [h]
  rfl

/-- claim C8: `replaceReducer` rejects a non-function argument with the
invalid-reducer error and leaves the store untouched; given a function,
it installs it as `currentReducer` and immediately dispatches the
internal INIT action, so `getState` immediately equals the new reducer
applied to the prior state and the INIT action — with no explicit
`dispatch` call from the caller. -/
theorem claim8_replaceReducer :
    (∀ (S : Type) (env : Nat → List SubEvent) (fuel : Nat) (st : Store S),
      replaceReducer env fuel none st = (st, Except.error DErr.invalidReducer)) ∧
    (∀ (S : Type) (env : Nat → List SubEvent) (fuel : Nat)
        (f : Option S → DAction → Option S) (st : Store S),
      st.isDispatching = false →
      (replaceReducer env (fuel + 1) (some (pureReducer f)) st).2 = Except.ok () ∧
      getState (replaceReducer env (fuel + 1) (some (pureReducer f)) st).1
        = f (getState st) initAction ∧
      (replaceReducer env (fuel + 1) (some (pureReducer f)) st).1.currentReducer
        = pureReducer f) := by
  constructor
  · intro S env fuel st
    rfl
  · intro S env fuel f st hidle
    have hd := dispatch_pure env fuel f ActionTypesINIT
      { st with currentReducer := pureReducer f } rfl hidle
    unfold replaceReducer
    dsimp only
    rw [show initAction = DAction.mk ActionTypesINIT from rfl, hd]
    dsimp only
    have hc := sameCore_notifyAll env
      ({ st with currentReducer := pureReducer f } : Store S).nextListeners.elems
      { { st with currentReducer := pureReducer f } with
          currentState := f ({ st with currentReducer := pureReducer f } : Store S).currentState
            (DAction.mk ActionTypesINIT),
          isDispatching := false,
          currentListeners := ({ st with currentReducer := pureReducer f } : Store S).nextListeners }
    exact ⟨rfl, hc.1, hc.2.1⟩

/-- Full description of the slice loop when every slice reducer returns a
defined value: it succeeds, the produced fields are keyed in build order
and carry each slice's new value, and the change flag is set exactly when
some slice's result differs (by identity) from its previous value. -/
theorem combineLoop_spec {V : Type} [DecidableEq V]
    (rs : List (String × (Option V → DAction → Option V)))
    (state : JObj V) (a : DAction)
    (hdef : ∀ kr ∈ rs, (kr.2 (state.get kr.1) a).isSome) :
    ∃ fields hc, combineLoop rs state a = Except.ok (fields, hc) ∧
      List.Forall₂ (fun kr f => f.1 = kr.1 ∧ some f.2 = kr.2 (state.get kr.1) a)
        rs fields ∧
      (hc = true ↔ ∃ kr ∈ rs, kr.2 (state.get kr.1) a ≠ state.get kr.1) := by
  induction rs with
  | nil =>
      refine ⟨[], false, rfl, List.Forall₂.nil, ?_⟩
      simp
  | cons kr rest ih =>
      obtain ⟨key, reducer⟩ := kr
      have hhead := hdef (key, reducer) (List.mem_cons_self _ _)
      dsimp only at hhead
      rcases hv : reducer (state.get key) a with _ | v
      · rw [hv] at hhead
        simp at hhead
      · obtain ⟨fields, hc, hloop, hall, hflag⟩ :=
          ih (fun kr h => hdef kr (List.mem_cons_of_mem _ h))
        refine ⟨(key, v) :: fields,
          decide (some v ≠ state.get key) || hc, ?_, ?_, ?_⟩
        · show (match reducer (state.get key) a with
            | none => Except.error (CombErr.undefinedSlice key (describeAction a))
            | some nextStateForKey =>
                match combineLoop rest state a with
                | Except.error e => Except.error e
                | Except.ok (fields, hasChanged) =>
                    Except.ok ((key, nextStateForKey) :: fields,
                      decide (some nextStateForKey ≠ state.get key) || hasChanged)) = _
          rw [hv, hloop]
        · exact List.Forall₂.cons ⟨rfl, hv.symm⟩ hall
        · constructor
          · intro hor
            rcases Bool.or_eq_true_iff.mp hor with h | h
            · refine ⟨(key, reducer), List.mem_cons_self _ _, ?_⟩
              dsimp only
              rw [hv]
              exact of_decide_eq_true h
            · obtain ⟨kr', hmem, hne⟩ := hflag.mp h
              exact ⟨kr', List.mem_cons_of_mem _ hmem, hne⟩
          · rintro ⟨kr', hmem, hne⟩
            rcases List.mem_cons.mp hmem with heq | hmem'
            · subst heq
              dsimp only at hne
              rw [hv] at hne
              exact Bool.or_eq_true_iff.mpr (Or.inl (decide_eq_true hne))
            · exact Bool.or_eq_true_iff.mpr (Or.inr (hflag.mpr ⟨kr', hmem', hne⟩))

/-- claim C5: (first conjunct) when every slice reducer returns a defined
value identical (by identity) to its previous slice value, the combined
reducer returns the exact `state` object it was passed — for any
allocation `fresh`, so applying it twice returns the identical reference
both times; (second conjunct) when some slice's result differs by
identity, it returns the newly constructed object (identity `fresh`)
whose fields are every slice key's new value in build order. -/
theorem claim5_referential_stability :
    (∀ (V : Type) (_inst : DecidableEq V)
        (reducers : List (String × Option (Option V → DAction → Option V)))
        (probeT : String) (state : JObj V) (a : DAction) (fresh : Nat),
      findSanityError (finalReducersOf reducers) probeT = none →
      (∀ kr ∈ finalReducersOf reducers,
        ∃ v, state.get kr.1 = some v ∧ kr.2 (state.get kr.1) a = some v) →
      combineReducers reducers probeT fresh (some state) a = Except.ok state) ∧
    (∀ (V : Type) (_inst : DecidableEq V)
        (reducers : List (String × Option (Option V → DAction → Option V)))
        (probeT : String) (state : JObj V) (a : DAction) (fresh : Nat),
      findSanityError (finalReducersOf reducers) probeT = none →
      (∀ kr ∈ finalReducersOf reducers, (kr.2 (state.get kr.1) a).isSome) →
      (∃ kr ∈ finalReducersOf reducers, kr.2 (state.get kr.1) a ≠ state.get kr.1) →
      ∃ fields,
        combineReducers reducers probeT fresh (some state) a
          = Except.ok { oid := fresh, fields := fields } ∧
        List.Forall₂ (fun kr f => f.1 = kr.1 ∧ some f.2 = kr.2 (state.get kr.1) a)
          (finalReducersOf reducers) fields) := by
  constructor
  · intro V _inst reducers probeT state a fresh hsane hsame
    have hdef : ∀ kr ∈ finalReducersOf reducers, (kr.2 (state.get kr.1) a).isSome := by
      intro kr hmem
      obtain ⟨v, _, hres⟩ := hsame kr hmem
      rw [hres]
      rfl
    obtain ⟨fields, hc, hloop, hall, hflag⟩ :=
      combineLoop_spec (finalReducersOf reducers) state a hdef
    have hcf : hc = false := by
      cases hhc : hc with
      | false => rfl
      | true =>
          obtain ⟨kr, hmem, hne⟩ := hflag.mp hhc
          obtain ⟨v, hget, hres⟩ := hsame kr hmem
          exact absurd (hres.trans hget.symm) hne
    unfold combineReducers
    rw [hsane]
    unfold combination
    dsimp only [Option.getD]
    rw [hloop, hcf]
    rfl
  · intro V _inst reducers probeT state a fresh hsane hdef hchanged
    obtain ⟨fields, hc, hloop, hall, hflag⟩ :=
      combineLoop_spec (finalReducersOf reducers) state a hdef
    refine ⟨fields, ?_, hall⟩
    unfold combineReducers
    rw [hsane]
    unfold combination
    dsimp only [Option.getD]
    rw [hloop, hflag.mpr hchanged]
    rfl

theorem findTok_key {tok : Nat} {fl : List (Nat × Nat × Bool)}
    {e : Nat × Nat × Bool} (h : findTok tok fl = some e) : e.1 = tok := by
  induction fl with
  | nil => exact absurd h (by simp [findTok])
  | cons f rest ih =>
      rw [findTok] at h
      split at h
      · next heq => cases h; exact heq
      · exact ih h

theorem findTok_setTokInactive {tok : Nat} {fl : List (Nat × Nat × Bool)}
    {e : Nat × Nat × Bool} (h : findTok tok fl = some e) :
    findTok tok (setTokInactive tok fl) = some (e.1, e.2.1, false) := by
  induction fl with
  | nil => exact absurd h (by simp [findTok])
  | cons f rest ih =>
      rw [findTok] at h
      unfold setTokInactive
      rw [List.map_cons, findTok]
      split at h
      · next heq =>
          cases h
          rw [if_pos heq]
          rw [if_pos heq]
      · next hne =>
          rw [if_neg hne]
          rw [if_neg hne]
          exact ih h

/-- The unsubscribe closure is idempotent: its second and later calls are
no-ops, on every store. -/
theorem unsubscribe_idem {S : Type} (tok : Nat) (st : Store S) :
    unsubscribe tok (unsubscribe tok st) = unsubscribe tok st := by
  rcases h : findTok tok st.subFlags with _ | e
  · have h1 : unsubscribe tok st = st := by
      unfold unsubscribe
      rw [h]
    rw [h1, h1]
  · rcases hflag : e.2.2 with _ | _
    · -- flag already false: first call is itself a no-op
      have h1 : unsubscribe tok st = st := by
        unfold unsubscribe
        rw [h]
        dsimp only
        rw [if_pos hflag]
      rw [h1, h1]
    · -- flag true: first call clears it, second call finds it cleared
      have h1 : unsubscribe tok st =
          { ensureCanMutateNextListeners
              { st with subFlags := setTokInactive tok st.subFlags } with
            nextListeners := { (ensureCanMutateNextListeners
                { st with subFlags := setTokInactive tok st.subFlags }).nextListeners with
              elems := jsRemoveListener e.2.1 (ensureCanMutateNextListeners
                { st with subFlags := setTokInactive tok st.subFlags }).nextListeners.elems } } := by
        unfold unsubscribe
        rw [h]
        dsimp only
        rw [if_neg (by rw [hflag]; simp)]
      have hsf : (unsubscribe tok st).subFlags = setTokInactive tok st.subFlags := by
        rw [h1, ensure_subFlags]
      conv_lhs => rw [unsubscribe]
      rw [hsf, findTok_setTokInactive h]
      dsimp only
      rw [if_pos rfl]

theorem storeWF_setTokInactive {S : Type} {st : Store S} (hwf : StoreWF st)
    (tok : Nat) : StoreWF { st with subFlags := setTokInactive tok st.subFlags } := by
  refine ⟨hwf.1, hwf.2.1, hwf.2.2.1, ?_⟩
  intro e' he'
  rcases setTokInactive_keys tok st.subFlags e' he' with ⟨e'', he'', hkey⟩
  rw [hkey]
  exact hwf.2.2.2 e'' he''

/-- Effect of a live unsubscribe closure on the staging array: it splices
out the captured listener (the first occurrence, identity-based). -/
theorem unsubscribe_elems_active {S : Type} {st : Store S} {tok l : Nat}
    (hwf : StoreWF st) (h : findTok tok st.subFlags = some (tok, l, true)) :
    (unsubscribe tok st).nextListeners.elems
      = jsRemoveListener l st.nextListeners.elems := by
  unfold unsubscribe
  rw [h]
  dsimp only
  rw [if_neg (by simp)]
  rw [ensure_elems (storeWF_setTokInactive hwf tok)]

theorem findTok_none {tok : Nat} {fl : List (Nat × Nat × Bool)}
    (h : ∀ e ∈ fl, e.1 ≠ tok) : findTok tok fl = none := by
  induction fl with
  | nil => rfl
  | cons f rest ih =>
      rw [findTok, if_neg (h f (List.mem_cons_self _ _))]
      exact ih fun e he => h e (List.mem_cons_of_mem _ he)

theorem findTok_append_none {tok : Nat} {fl1 fl2 : List (Nat × Nat × Bool)}
    (h : findTok tok fl1 = none) : findTok tok (fl1 ++ fl2) = findTok tok fl2 := by
  induction fl1 with
  | nil => rfl
  | cons f rest ih =>
      rw [findTok] at h
      rw [List.cons_append, findTok]
      split at h
      · exact absurd h (by simp)
      · next hne =>
          rw [if_neg hne]
          exact ih h

/-- claim C7: (1) every unsubscribe closure is idempotent — later calls
are no-ops on any store, even after re-subscription; (2) the first call
of a live closure removes exactly one registration of its captured
listener (identity-based: all other listeners' registration counts are
untouched); (3) subscribing the same listener twice and calling the
first returned unsubscribe closure once leaves exactly one of the two
new registrations. -/
theorem claim7_unsubscribe_idempotent :
    (∀ (S : Type) (st : Store S) (tok : Nat),
      unsubscribe tok (unsubscribe tok st) = unsubscribe tok st) ∧
    (∀ (S : Type) (st : Store S) (tok l : Nat), StoreWF st →
      findTok tok st.subFlags = some (tok, l, true) →
      l ∈ st.nextListeners.elems →
      List.count l (unsubscribe tok st).nextListeners.elems + 1
          = List.count l st.nextListeners.elems ∧
      (∀ y, y ≠ l →
        List.count y (unsubscribe tok st).nextListeners.elems
          = List.count y st.nextListeners.elems)) ∧
    (∀ (S : Type) (st : Store S) (l : Nat), StoreWF st →
      List.count l
          (unsubscribe (subscribe l st).2
            (subscribe l (subscribe l st).1).1).nextListeners.elems
        = List.count l st.nextListeners.elems + 1) := by
  refine ⟨fun S st tok => unsubscribe_idem tok st, ?_, ?_⟩
  · intro S st tok l hwf hfind hmem
    rw [unsubscribe_elems_active hwf hfind]
    unfold jsRemoveListener
    rw [if_pos hmem]
    constructor
    · rw [List.count_erase_self]
      have hpos : 0 < List.count l st.nextListeners.elems :=
        List.count_pos_iff.mpr hmem
      omega
    · intro y hy
      exact List.count_erase_of_ne hy _
  · intro S st l hwf
    have hwf1 := storeWF_subscribe hwf l
    have hwf2 := storeWF_subscribe hwf1 l
    have hflags2 : (subscribe l (subscribe l st).1).1.subFlags
        = st.subFlags ++ ([(st.nextToken, l, true)] ++ [(st.nextToken + 1, l, true)]) := by
      rw [subscribe_subFlags, subscribe_subFlags, subscribe_nextToken, List.append_assoc]
    have hfind : findTok (subscribe l st).2
        (subscribe l (subscribe l st).1).1.subFlags
          = some ((subscribe l st).2, l, true) := by
      rw [subscribe_snd, hflags2]
      rw [findTok_append_none (findTok_none fun e he =>
        Nat.ne_of_lt (hwf.2.2.2 e he))]
      simp [findTok]
    have helems2 : (subscribe l (subscribe l st).1).1.nextListeners.elems
        = st.nextListeners.elems ++ [l] ++ [l] := by
      rw [subscribe_elems hwf1, subscribe_elems hwf]
    rw [unsubscribe_elems_active hwf2 hfind]
    unfold jsRemoveListener
    rw [helems2]
    rw [if_pos (by simp)]
    rw [List.count_erase_self]
    simp [List.count_append]

theorem storeWF_swap {S : Type} {st : Store S} (hwf : StoreWF st)
    (x : Option S) (b : Bool) :
    StoreWF { st with currentState := x, isDispatching := b,
                      currentListeners := st.nextListeners } :=
  ⟨hwf.2.1, hwf.2.1, fun _ => rfl, hwf.2.2.2⟩

/-- Running a block of subscribe-only registry calls preserves
well-formedness, preserves every existing registration, and registers
each subscribed listener. -/
theorem applyEvents_sub_only {S : Type} {evs : List SubEvent}
    (hsub : ∀ ev ∈ evs, ∀ tk, ev ≠ SubEvent.unsub tk) {st : Store S}
    (hwf : StoreWF st) :
    StoreWF (applyEvents evs st) ∧
    (∀ y, y ∈ st.nextListeners.elems →
      y ∈ (applyEvents evs st).nextListeners.elems) ∧
    (∀ x, SubEvent.sub x ∈ evs →
      x ∈ (applyEvents evs st).nextListeners.elems) := by
  induction evs generalizing st with
  | nil =>
      exact ⟨hwf, fun y hy => hy, fun x hx => absurd hx (by simp)⟩
  | cons ev rest ih =>
      cases ev with
      | unsub tk => exact absurd rfl (hsub _ (List.mem_cons_self _ _) tk)
      | sub l =>
          have hstep : applyEvents (SubEvent.sub l :: rest) st
              = applyEvents rest (subscribe l st).1 := rfl
          have hwf' := storeWF_subscribe hwf l
          obtain ⟨ihwf, ihkeep, ihsub⟩ :=
            ih (fun ev he tk => hsub ev (List.mem_cons_of_mem _ he) tk) hwf'
          rw [hstep]
          refine ⟨ihwf, ?_, ?_⟩
          · intro y hy
            refine ihkeep y ?_
            rw [subscribe_elems hwf]
            exact List.mem_append_left _ hy
          · intro x hx
            rcases List.mem_cons.mp hx with heq | hmem
            · cases heq
              refine ihkeep l ?_
              rw [subscribe_elems hwf]
              simp
            · exact ihsub x hmem

/-- The notification loop, when every invoked listener only subscribes:
well-formedness is preserved, existing registrations survive, and any
listener subscribed by an invoked listener ends up registered. -/
theorem notifyAll_sub_only {S : Type} (env : Nat → List SubEvent)
    (hsub : ∀ x, ∀ ev ∈ env x, ∀ tk, ev ≠ SubEvent.unsub tk)
    (ls : List Nat) (st : Store S) (hwf : StoreWF st) :
    StoreWF (notifyAll env ls st).1 ∧
    (∀ y, y ∈ st.nextListeners.elems →
      y ∈ (notifyAll env ls st).1.nextListeners.elems) ∧
    (∀ m L, m ∈ ls → SubEvent.sub L ∈ env m →
      L ∈ (notifyAll env ls st).1.nextListeners.elems) := by
  induction ls generalizing st with
  | nil =>
      exact ⟨hwf, fun y hy => hy, fun m L hm => absurd hm (by simp)⟩
  | cons l rest ih =>
      obtain ⟨hwf1, hkeep1, hsub1⟩ := applyEvents_sub_only (hsub l) hwf
      obtain ⟨ihwf, ihkeep, ihsub⟩ := ih (applyEvents (env l) st) hwf1
      have hstep : (notifyAll env (l :: rest) st).1
          = (notifyAll env rest (applyEvents (env l) st)).1 := rfl
      rw [hstep]
      refine ⟨ihwf, ?_, ?_⟩
      · intro y hy
        exact ihkeep y (hkeep1 y hy)
      · intro m L hm hL
        rcases List.mem_cons.mp hm with heq | hmem
        · subst heq
          exact ihkeep L (hsub1 L hL)
        · exact ihsub m L hmem hL

/-- The notification loop when exactly one invoked listener calls one
unsubscribe closure and every other listener does nothing: the net
effect on the store is one call of that closure (repeated invocations
collapse by idempotence). -/
theorem notifyAll_single_unsub {S : Type} (env : Nat → List SubEvent)
    (m tok : Nat) (henvm : env m = [SubEvent.unsub tok])
    (henvo : ∀ x, x ≠ m → env x = [])
    (ls : List Nat) (st : Store S) :
    (notifyAll env ls st).1 = if m ∈ ls then unsubscribe tok st else st := by
  induction ls generalizing st with
  | nil => simp [notifyAll]
  | cons l rest ih =>
      have hstep : (notifyAll env (l :: rest) st).1
          = (notifyAll env rest (applyEvents (env l) st)).1 := rfl
      rw [hstep]
      by_cases hl : l = m
      · subst hl
        have h1 : applyEvents (env l) st = unsubscribe tok st := by
          rw [henvm]
          rfl
        rw [h1, ih]
        by_cases hm : l ∈ rest
        · rw [if_pos hm, if_pos (List.mem_cons_self _ _), unsubscribe_idem]
        · rw [if_neg hm, if_pos (List.mem_cons_self _ _)]
      · have h1 : applyEvents (env l) st = st := by
          rw [henvo l hl]
          rfl
        rw [h1, ih]
        by_cases hm : m ∈ rest
        · rw [if_pos hm, if_pos (List.mem_cons_of_mem _ hm)]
        · rw [if_neg hm, if_neg (by
            intro hc
            rcases List.mem_cons.mp hc with heq | hmem
            · exact hl heq.symm
            · exact hm hmem)]

/-- claim C2: (first conjunct) a listener `L` subscribed while the
listeners of dispatch N are being notified (here: by an invoked listener
`m`, with every listener only subscribing) is not invoked during
dispatch N but is invoked during dispatch N+1; (second conjunct) a
listener `L` whose (live) unsubscribe closure is called during the
notification phase of dispatch N is still invoked during N — it was
already snapshotted — but not during N+1. -/
theorem claim2_notification_phase_timing :
    (∀ (S : Type) (env : Nat → List SubEvent) (fuel fuel' : Nat)
        (f : Option S → DAction → Option S) (t t' : String) (st : Store S)
        (L m : Nat),
      StoreWF st → st.isDispatching = false →
      st.currentReducer = pureReducer f →
      (∀ x, ∀ ev ∈ env x, ∀ tk, ev ≠ SubEvent.unsub tk) →
      m ∈ st.nextListeners.elems → SubEvent.sub L ∈ env m →
      L ∉ st.nextListeners.elems →
      L ∉ (dispatch env (fuel + 1) (DAction.mk t) st).log ∧
      L ∈ (dispatch env (fuel' + 1) (DAction.mk t')
            (dispatch env (fuel + 1) (DAction.mk t) st).store).log) ∧
    (∀ (S : Type) (env : Nat → List SubEvent) (fuel fuel' : Nat)
        (f : Option S → DAction → Option S) (t t' : String) (st : Store S)
        (L m tok : Nat),
      StoreWF st → st.isDispatching = false →
      st.currentReducer = pureReducer f →
      env m = [SubEvent.unsub tok] → (∀ x, x ≠ m → env x = []) →
      findTok tok st.subFlags = some (tok, L, true) →
      List.count L st.nextListeners.elems = 1 →
      m ∈ st.nextListeners.elems →
      L ∈ (dispatch env (fuel + 1) (DAction.mk t) st).log ∧
      L ∉ (dispatch env (fuel' + 1) (DAction.mk t')
            (dispatch env (fuel + 1) (DAction.mk t) st).store).log) := by
  constructor
  · intro S env fuel fuel' f t t' st L m hwf hidle hred hsubonly hm hLenv hLnot
    rw [dispatch_pure env fuel f t st hred hidle]
    dsimp only
    obtain ⟨hwfN, hkeepN, hsubN⟩ := notifyAll_sub_only env hsubonly
      st.nextListeners.elems
      { st with currentState := f st.currentState (DAction.mk t),
                isDispatching := false, currentListeners := st.nextListeners }
      (storeWF_swap hwf _ _)
    have hLin := hsubN m L hm hLenv
    have hcore := sameCore_notifyAll env st.nextListeners.elems
      { st with currentState := f st.currentState (DAction.mk t),
                isDispatching := false, currentListeners := st.nextListeners }
    refine ⟨hLnot, ?_⟩
    rw [dispatch_pure env fuel' f t' _ (by rw [hcore.2.1]; exact hred)
      (by rw [hcore.2.2.1])]
    exact hLin
  · intro S env fuel fuel' f t t' st L m tok hwf hidle hred henvm henvo hfind
      hcount hm
    rw [dispatch_pure env fuel f t st hred hidle]
    dsimp only
    have hLmem : L ∈ st.nextListeners.elems :=
      List.count_pos_iff.mp (by rw [hcount]; exact Nat.one_pos)
    have hswap := notifyAll_single_unsub env m tok henvm henvo
      st.nextListeners.elems
      { st with currentState := f st.currentState (DAction.mk t),
                isDispatching := false, currentListeners := st.nextListeners }
    rw [if_pos hm] at hswap
    rw [hswap]
    have hwfswap := storeWF_swap hwf (f st.currentState (DAction.mk t)) false
    have helems := @unsubscribe_elems_active S { st with
      currentState := f st.currentState (DAction.mk t),
      isDispatching := false, currentListeners := st.nextListeners } tok L
      hwfswap hfind
    have hcore := sameCore_unsubscribe tok
      ({ st with currentState := f st.currentState (DAction.mk t),
                 isDispatching := false, currentListeners := st.nextListeners } : Store S)
    refine ⟨hLmem, ?_⟩
    rw [dispatch_pure env fuel' f t' _ (by rw [hcore.2.1]; exact hred)
      (by rw [hcore.2.2.1])]
    rw [helems]
    unfold jsRemoveListener
    rw [if_pos hLmem]
    intro hcon
    have := List.count_pos_iff.mpr hcon
    rw [List.count_erase_self, hcount] at this
    omega

/-- claim C1 counterexample: on the store `createStore 3 c1Reducer none`,
no listener at all is registered before the `"GO"` dispatch begins, yet
listener `7` — subscribed from inside the running reducer, i.e. after
the dispatch began — is invoked during that same dispatch's
notification phase.  This refutes "the set of listeners invoked … is
exactly the set registered strictly before that dispatch began",
quantified to cover subscriptions made from inside the reducer. -/
theorem claim1_counterexample :
    (createStore 3 c1Reducer none).nextListeners.elems = [] ∧
    (createStore 3 c1Reducer none).currentListeners.elems = [] ∧
    (dispatch (fun _ => []) 3 (DAction.mk "GO") (createStore 3 c1Reducer none)).log
      = [7] := by
  refine ⟨rfl, rfl, rfl⟩

/-- claim C1 (amended): (first conjunct) the set of listeners invoked by a
successful dispatch is exactly `nextListeners` at the moment the reducer
invocation returns — the snapshot is taken at the start of the
notification phase, not at the start of the dispatch; (second conjunct)
for a reducer performing no registry operations this snapshot is exactly
the set registered strictly before the dispatch began, whatever the
invoked listeners do — so subscriptions/unsubscriptions during the
notification phase take effect only from the next dispatch; (third
conjunct) a listener subscribed from inside the running reducer IS
invoked during the current dispatch. -/
theorem claim1_snapshot_amended :
    (∀ (S : Type) (env : Nat → List SubEvent) (fuel : Nat) (t : String)
        (st stMid : Store S) (s' : Option S),
      st.isDispatching = false →
      runBodyWith (dispatch env fuel) fuel
          (st.currentReducer st.currentState (DAction.mk t))
          { st with isDispatching := true } = (stMid, ROut.ret s') →
      (dispatch env (fuel + 1) (DAction.mk t) st).log
          = stMid.nextListeners.elems ∧
      (dispatch env (fuel + 1) (DAction.mk t) st).outcome
          = Except.ok (DAction.mk t)) ∧
    (∀ (S : Type) (env : Nat → List SubEvent) (fuel : Nat)
        (f : Option S → DAction → Option S) (t : String) (st : Store S),
      st.isDispatching = false → st.currentReducer = pureReducer f →
      (dispatch env (fuel + 1) (DAction.mk t) st).log
        = st.nextListeners.elems) ∧
    (∀ (S : Type) (env : Nat → List SubEvent) (fuel : Nat)
        (f : Option S → DAction → Option S) (t : String) (st : Store S)
        (L : Nat),
      st.isDispatching = false →
      st.currentReducer = (fun s a => RedBody.subThen L fun _ => RedBody.ret (f s a)) →
      L ∈ (dispatch env (fuel + 2) (DAction.mk t) st).log) := by
  refine ⟨?_, ?_, ?_⟩
  · intro S env fuel t st stMid s' hidle hrun
    rw [dispatch, dispatchChecks_mk t hidle]
    dsimp only
    rw [hrun]
    dsimp only
    rw [notifyAll_log]
    exact ⟨rfl, rfl⟩
  · intro S env fuel f t st hidle hred
    rw [dispatch_pure env fuel f t st hred hidle]
  · intro S env fuel f t st L hidle hred
    rw [show fuel + 2 = (fuel + 1) + 1 from rfl, dispatch, dispatchChecks_mk t hidle]
    dsimp only
    rw [hred]
    dsimp only
    rw [runBodyWith_subThen, runBodyWith_ret]
    dsimp only
    rw [notifyAll_log]
    simp [subscribe]

/-- Witness for claim C1 (amended) at concrete inputs. -/
theorem claim1_snapshot_amended_witness :
    ((dispatch (fun _ => []) 2 (DAction.mk "X") wStore0).log
        = wStoreMid.nextListeners.elems ∧
      (dispatch (fun _ => []) 2 (DAction.mk "X") wStore0).outcome
        = Except.ok (DAction.mk "X")) ∧
    (dispatch (fun _ => []) 1 (DAction.mk "X") wStore0).log
        = wStore0.nextListeners.elems ∧
    7 ∈ (dispatch (fun _ => []) 2 (DAction.mk "X") wSubStore).log :=
  ⟨claim1_snapshot_amended.1 Nat (fun _ => []) 1 "X" wStore0 wStoreMid (some 0)
      rfl rfl,
    claim1_snapshot_amended.2.1 Nat (fun _ => []) 0 wPure "X" wStore0 rfl rfl,
    claim1_snapshot_amended.2.2 Nat (fun _ => []) 0 wId "X" wSubStore 7 rfl rfl⟩

/-- Witness for claim C2 at concrete inputs. -/
theorem claim2_notification_phase_timing_witness :
    (9 ∉ (dispatch wEnvA 1 (DAction.mk "X") wStoreA).log ∧
      9 ∈ (dispatch wEnvA 1 (DAction.mk "Y")
            (dispatch wEnvA 1 (DAction.mk "X") wStoreA).store).log) ∧
    (5 ∈ (dispatch wEnvB 1 (DAction.mk "X") wStoreB).log ∧
      5 ∉ (dispatch wEnvB 1 (DAction.mk "Y")
            (dispatch wEnvB 1 (DAction.mk "X") wStoreB).store).log) :=
  ⟨claim2_notification_phase_timing.1 Nat wEnvA 0 0 wPure "X" "Y" wStoreA 9 1
      (by unfold StoreWF; decide) rfl rfl
      (by
        intro x ev hev tk
        by_cases hx : x = 1
        · subst hx
          simp [wEnvA] at hev
          subst hev
          simp
        · simp [wEnvA, hx] at hev)
      (by decide) (by decide) (by decide),
    claim2_notification_phase_timing.2 Nat wEnvB 0 0 wPure "X" "Y" wStoreB 5 5 0
      (by unfold StoreWF; decide) rfl rfl rfl
      (by
        intro x hx
        simp [wEnvB, hx])
      (by decide) (by decide) (by decide)⟩

/-- Witness for claim C3 at concrete inputs. -/
theorem claim3_reentrancy_witness :
    dispatch (fun _ => []) 1 (DAction.mk "X") wBusy
        = ⟨wBusy, Except.error DErr.reentrantDispatch, []⟩ ∧
    ((dispatch (fun _ => []) 1 (DAction.mk "BOOM") wRaiseStore).store
        = wRaiseStore ∧
      (dispatch (fun _ => []) 1 (DAction.mk "BOOM") wRaiseStore).outcome
        = Except.error DErr.reducerRaised) ∧
    (dispatch (fun _ => []) 1 (DAction.mk "OK")
        (dispatch (fun _ => []) 1 (DAction.mk "BOOM") wRaiseStore).store).outcome
      = Except.ok (DAction.mk "OK") ∧
    ((dispatch (fun _ => []) 2 (DAction.mk "X") wInnerStore).outcome
        = Except.ok (DAction.mk "X") ∧
      getState (dispatch (fun _ => []) 2 (DAction.mk "X") wInnerStore).store
        = wG wInnerStore.currentState (Except.error DErr.reentrantDispatch)) :=
  ⟨claim3_reentrancy.1 Nat (fun _ => []) 1 "X" wBusy rfl,
    claim3_reentrancy.2.1 Nat (fun _ => []) 0 "BOOM" wRaiseStore rfl rfl,
    claim3_reentrancy.2.2.1 Nat (fun _ => []) 0 0 "BOOM" "OK" (some 0)
      wRaiseStore rfl rfl rfl,
    claim3_reentrancy.2.2.2 Nat (fun _ => []) 0 "X" "IN" wG wInnerStore rfl rfl⟩

/-- Witness for claim C5 at concrete inputs. -/
theorem claim5_referential_stability_witness :
    combineReducers wRsA "P" 9 (some wStateA) (DAction.mk "NOP")
        = Except.ok wStateA ∧
    (∃ fields,
      combineReducers wRsB "P" 9 (some wStateA) (DAction.mk "X")
          = Except.ok { oid := 9, fields := fields } ∧
      List.Forall₂
        (fun kr f => f.1 = kr.1 ∧ some f.2 = kr.2 (wStateA.get kr.1) (DAction.mk "X"))
        (finalReducersOf wRsB) fields) :=
  ⟨claim5_referential_stability.1 Nat instDecidableEqNat wRsA "P" wStateA
      (DAction.mk "NOP") 9 rfl
      (by
        intro kr hkr
        rw [show finalReducersOf wRsA = [("a", wIdSlice), ("b", wIdSlice)]
          from rfl] at hkr
        rcases List.mem_cons.mp hkr with h | hkr
        · subst h
          exact ⟨1, rfl, rfl⟩
        rcases List.mem_cons.mp hkr with h | hkr
        · subst h
          exact ⟨2, rfl, rfl⟩
        exact absurd hkr (by simp)),
    claim5_referential_stability.2 Nat instDecidableEqNat wRsB "P" wStateA
      (DAction.mk "X") 9 rfl
      (by
        intro kr hkr
        rw [show finalReducersOf wRsB = [("a", wIdSlice), ("b", wIncSlice)]
          from rfl] at hkr
        rcases List.mem_cons.mp hkr with h | hkr
        · subst h
          rfl
        rcases List.mem_cons.mp hkr with h | hkr
        · subst h
          rfl
        exact absurd hkr (by simp))
      ⟨("b", wIncSlice), by
        rw [show finalReducersOf wRsB = [("a", wIdSlice), ("b", wIncSlice)]
          from rfl]
        simp, by decide⟩⟩

/-- Witness for claim C6 at concrete inputs. -/
theorem claim6_deferred_sanity_error_witness :
    combineReducers wRsBad "P" 0 none (DAction.mk "X")
      = Except.error (CombErr.sanity "bad") :=
  claim6_deferred_sanity_error Nat instDecidableEqNat wRsBad "P" "bad" rfl 0 none
    (DAction.mk "X")

/-- Witness for claim C7 at concrete inputs. -/
theorem claim7_unsubscribe_idempotent_witness :
    unsubscribe 0 (unsubscribe 0 wStoreB) = unsubscribe 0 wStoreB ∧
    (List.count 5 (unsubscribe 0 wStoreB).nextListeners.elems + 1
        = List.count 5 wStoreB.nextListeners.elems ∧
      (∀ y, y ≠ 5 →
        List.count y (unsubscribe 0 wStoreB).nextListeners.elems
          = List.count y wStoreB.nextListeners.elems)) ∧
    List.count 5
        (unsubscribe (subscribe 5 wStore0).2
          (subscribe 5 (subscribe 5 wStore0).1).1).nextListeners.elems
      = List.count 5 wStore0.nextListeners.elems + 1 :=
  ⟨claim7_unsubscribe_idempotent.1 Nat wStoreB 0,
    claim7_unsubscribe_idempotent.2.1 Nat wStoreB 0 5
      (by unfold StoreWF; decide) rfl (by decide),
    claim7_unsubscribe_idempotent.2.2 Nat wStore0 5 (by unfold StoreWF; decide)⟩

/-- Witness for claim C8 at concrete inputs. -/
theorem claim8_replaceReducer_witness :
    replaceReducer (fun _ => []) 1 none wStore0
        = (wStore0, Except.error DErr.invalidReducer) ∧
    ((replaceReducer (fun _ => []) 1 (some (pureReducer wIncSlice)) wStore0).2
        = Except.ok () ∧
      getState (replaceReducer (fun _ => []) 1
          (some (pureReducer wIncSlice)) wStore0).1
        = wIncSlice (getState wStore0) initAction ∧
      (replaceReducer (fun _ => []) 1
          (some (pureReducer wIncSlice)) wStore0).1.currentReducer
        = pureReducer wIncSlice) :=
  ⟨claim8_replaceReducer.1 Nat (fun _ => []) 1 wStore0,
    claim8_replaceReducer.2 Nat (fun _ => []) 0 wIncSlice wStore0 rfl⟩

/-- Witness for claim C10 at concrete inputs. -/
theorem claim10_state_during_reducer_witness :
    (getState (dispatch (fun _ => []) 2 (DAction.mk "X") wGetStore).store
        = wK (getState wGetStore) (DAction.mk "X") ∧
      (dispatch (fun _ => []) 2 (DAction.mk "X") wGetStore).outcome
        = Except.ok (DAction.mk "X")) ∧
    (getState (dispatch (fun _ => []) 1 (DAction.mk "BOOM") wRaiseStore).store
        = getState wRaiseStore ∧
      (dispatch (fun _ => []) 1 (DAction.mk "BOOM") wRaiseStore).outcome
        = Except.error DErr.reducerRaised) :=
  ⟨claim10_state_during_reducer.1 Nat (fun _ => []) 0 wK "X" wGetStore rfl rfl,
    claim10_state_during_reducer.2 Nat (fun _ => []) 0 "BOOM" wRaiseStore rfl rfl⟩
